import Mathlib

/-!
Verification of the Telegraf MQTT configuration generators
(`telegraf_mqtt_config_generator.py` and
`telegraf_mqtt_json_config_generator.py`).

Python strings are modelled as lists of characters (`Str`).  `str.replace`
with a single-character pattern is per-character substitution, `c in s` is
list membership, `s.startswith(p)` is `strStartsWith s p`,
`len(s.encode('utf-8'))` is `utf8Len s`, and `s.split('/')` is
`splitOnChar '/' s`.  CSV rows are association lists from column name to
string value; building and writing a document is modelled as returning it
(`Option Doc`: `none` means nothing is written).
-/

/-- Python string embedded as its list of characters. -/
abbrev Str := List Char

/-- Character list of a Lean string literal.  Used to transcribe the Python
string literals of the source. -/
def strLit (s : String) : Str := s.data

/-- Embedding of Python `s.startswith(p)` on character lists. -/
def strStartsWith : Str → Str → Bool
  | _, [] => true
  | [], _ :: _ => false
  | a :: s, b :: p => a == b && strStartsWith s p

/-- Embedding of Python `len(s.encode('utf-8'))`: total UTF-8 byte length. -/
def utf8Len (s : Str) : Nat := (s.map Char.utf8Size).sum

/-- Embedding of Python `s.split(c)` for a single-character separator:
the list of (possibly empty) segments; `length` of the result is the
level count used by the validator. -/
def splitOnChar (c : Char) : Str → List Str
  | [] => [[]]
  | a :: rest =>
    if a = c then [] :: splitOnChar c rest
    else
      match splitOnChar c rest with
      | [] => [[a]]
      | g :: gs => (a :: g) :: gs

/-- The module-level list `MQTT_TOPIC_EXCLUSION_CHARS` of
`telegraf_mqtt_config_generator.py`. -/
def MQTT_TOPIC_EXCLUSION_CHARS : List Char := ['+', '#', '*', '>', '$', '!']

/-- The first check of `validate_mqtt_topic`:
`any(char in topic_name for char in MQTT_TOPIC_EXCLUSION_CHARS)`. -/
def hasReservedChar (topic_name : Str) : Bool :=
  MQTT_TOPIC_EXCLUSION_CHARS.any (fun c => topic_name.any (fun a => a == c))

/-- The shared allowed-dollar-prefix test used in `validate_mqtt_topic` and
`sanitize_mqtt_topic`: `topic.startswith("$SYS/") or topic.startswith("$share/")
or topic.startswith("$noexport/")`. -/
def allowedDollarStart (s : Str) : Bool :=
  strStartsWith s (strLit "$SYS/") || strStartsWith s (strLit "$share/") ||
    strStartsWith s (strLit "$noexport/")

/-- Embedding of `TelegrafMQTTConfigGenerator.validate_mqtt_topic`.  The
checks appear in source order: reserved characters, leading `$`, UTF-8 byte
length over 250, more than 128 `/`-levels. -/
def validate_mqtt_topic (topic_name : Str) : Bool :=
  if hasReservedChar topic_name then false
  else if strStartsWith topic_name (strLit "$") && !allowedDollarStart topic_name then false
  else if 250 < utf8Len topic_name then false
  else if 128 < (splitOnChar '/' topic_name).length then false
  else true

/-- One step of the sanitizer loop: `sanitized_name.replace(char, '_')` for a
single character `char`. -/
def replaceChar (c : Char) (s : Str) : Str :=
  s.map (fun a => if a = c then '_' else a)

/-- The character-replacement loop of `sanitize_mqtt_topic`:
`for char in MQTT_TOPIC_EXCLUSION_CHARS: sanitized_name = sanitized_name.replace(char, '_')`. -/
def sanitizeChars (topic_name : Str) : Str :=
  MQTT_TOPIC_EXCLUSION_CHARS.foldl (fun s c => replaceChar c s) topic_name

/-- Embedding of `TelegrafMQTTConfigGenerator.sanitize_mqtt_topic`: the
replacement loop followed by the leading-`$` fix `"_" + sanitized_name[1:]`
when the result starts with `$` and is not an allowed system topic. -/
def sanitize_mqtt_topic (topic_name : Str) : Str :=
  if strStartsWith (sanitizeChars topic_name) (strLit "$") &&
      !allowedDollarStart (sanitizeChars topic_name) then
    '_' :: (sanitizeChars topic_name).drop 1
  else sanitizeChars topic_name

/-- Statement of the sanitizer taken from the spec's words: replace each
reserved character in the fixed order `+ # * > $ !`, then fix a leading `$`
that is not an allowed prefix.  Compared against `sanitize_mqtt_topic`. -/
def sanitizeSpecOrdered (t : Str) : Str :=
  let s1 := replaceChar '+' t
  let s2 := replaceChar '#' s1
  let s3 := replaceChar '*' s2
  let s4 := replaceChar '>' s3
  let s5 := replaceChar '$' s4
  let s6 := replaceChar '!' s5
  if strStartsWith s6 (strLit "$") && !allowedDollarStart s6 then '_' :: s6.drop 1
  else s6

theorem mem_replaceChar {a c : Char} {s : Str} (h : a ∈ replaceChar c s) :
    a = '_' ∨ (a ∈ s ∧ a ≠ c) := by
  unfold replaceChar at h
  rcases List.mem_map.mp h with ⟨b, hb, hba⟩
  by_cases hbc : b = c
  · subst hbc
    simp only [if_pos rfl] at hba
    exact Or.inl hba.symm
  · simp only [if_neg hbc] at hba
    subst hba
    exact Or.inr ⟨hb, hbc⟩

theorem mem_foldl_replaceChar {cs : List Char} {s : Str} {a : Char}
    (h : a ∈ cs.foldl (fun s c => replaceChar c s) s) :
    a = '_' ∨ (a ∈ s ∧ a ∉ cs) := by
  induction cs generalizing s with
  | nil => exact Or.inr ⟨h, by simp⟩
  | cons c cs ih =>
    rw [List.foldl_cons] at h
    rcases ih h with h1 | ⟨h2, h3⟩
    · exact Or.inl h1
    · rcases mem_replaceChar h2 with h4 | ⟨h5, h6⟩
      · exact Or.inl h4
      · exact Or.inr ⟨h5, by simp [h3, h6]⟩

theorem reserved_not_mem_sanitizeChars {c : Char}
    (hc : c ∈ MQTT_TOPIC_EXCLUSION_CHARS) (t : Str) : c ∉ sanitizeChars t := by
  intro hmem
  rcases mem_foldl_replaceChar hmem with h | ⟨_, h⟩
  · subst h
    revert hc
    decide
  · exact h hc

theorem replaceChar_id_of_not_mem {c : Char} : ∀ {s : Str}, c ∉ s → replaceChar c s = s := by
  intro s
  induction s with
  | nil => intro _; rfl
  | cons a s ih =>
    intro h
    have h1 : ¬ a = c := fun hac => h (by simp [hac])
    have h2 : c ∉ s := fun hcs => h (by simp [hcs])
    simp only [replaceChar, List.map_cons, if_neg h1]
    exact congrArg (List.cons a) (ih h2)

theorem foldl_replaceChar_id {cs : List Char} : ∀ {s : Str}, (∀ c ∈ cs, c ∉ s) →
    cs.foldl (fun s c => replaceChar c s) s = s := by
  induction cs with
  | nil => intro s _; rfl
  | cons c cs ih =>
    intro s h
    rw [List.foldl_cons, replaceChar_id_of_not_mem (h c (by simp))]
    exact ih (fun d hd => h d (by simp [hd]))

theorem sanitizeChars_id_of_clean {s : Str}
    (h : ∀ c ∈ MQTT_TOPIC_EXCLUSION_CHARS, c ∉ s) : sanitizeChars s = s :=
  foldl_replaceChar_id h

theorem dollar_mem_of_startsWith {s : Str} (h : strStartsWith s (strLit "$") = true) :
    '$' ∈ s := by
  cases s with
  | nil => exact absurd h (by decide)
  | cons a s =>
    have ha : a = '$' := by
      have h1 : ((a == '$') && strStartsWith s []) = true := h
      simp only [Bool.and_eq_true, beq_iff_eq] at h1
      exact h1.1
    simp [ha]

theorem not_dollar_start_sanitizeChars (t : Str) :
    strStartsWith (sanitizeChars t) (strLit "$") = false := by
  cases h : strStartsWith (sanitizeChars t) (strLit "$") with
  | false => rfl
  | true =>
    exact absurd (dollar_mem_of_startsWith h)
      (reserved_not_mem_sanitizeChars (by decide) t)

theorem sanitize_eq_sanitizeChars (t : Str) : sanitize_mqtt_topic t = sanitizeChars t := by
  unfold sanitize_mqtt_topic
  rw [not_dollar_start_sanitizeChars t]
  simp

theorem sanitizeChars_length (t : Str) : (sanitizeChars t).length = t.length := by
  unfold sanitizeChars
  generalize MQTT_TOPIC_EXCLUSION_CHARS = cs
  induction cs generalizing t with
  | nil => rfl
  | cons c cs ih =>
    rw [List.foldl_cons, ih]
    simp [replaceChar]

theorem hasReservedChar_eq_false {s : Str}
    (h : ∀ c ∈ MQTT_TOPIC_EXCLUSION_CHARS, c ∉ s) : hasReservedChar s = false := by
  unfold hasReservedChar
  rw [List.any_eq_false]
  intro c hc hany
  rcases List.any_eq_true.mp hany with ⟨a, ha, hac⟩
  rw [beq_iff_eq] at hac
  subst hac
  exact h a hc ha

theorem hasReservedChar_sanitize_false (t : Str) :
    hasReservedChar (sanitize_mqtt_topic t) = false := by
  rw [sanitize_eq_sanitizeChars]
  exact hasReservedChar_eq_false (fun c hc => reserved_not_mem_sanitizeChars hc t)

theorem hasReservedChar_false_of_validate {t : Str}
    (h : validate_mqtt_topic t = true) : hasReservedChar t = false := by
  cases hh : hasReservedChar t with
  | false => rfl
  | true =>
    unfold validate_mqtt_topic at h
    rw [hh] at h
    simp at h

/-- C1: the claim states that a topic starting with one of the literal
prefixes `$SYS/`, `$share/`, `$noexport/` is accepted despite its leading
`$`.  The code rejects every such topic: the blanket reserved-character
check fires on the `$` before the prefix exception is consulted, so the
prefix-allowance branch of `validate_mqtt_topic` is unreachable.  Evaluated
at the failing input `"$SYS/health"` (11 bytes, 2 levels, no other reserved
character), on which the claim requires `true` but the code returns
`false`. -/
theorem c1_validator_rejects_sys_topic :
    validate_mqtt_topic (strLit "$SYS/health") = false := by decide

/-- C4: `sanitize_mqtt_topic` equals the spec-ordered description — replace
each reserved character, in the fixed order `+ # * > $ !`, by `_`, then
replace only a leading `$` (outside the allowed prefixes) by `_` — and it
never truncates: the character length of the result equals that of the
input (reserved characters are 1-byte and replaced by the 1-byte `_`). -/
theorem c4_sanitize_spec_equiv :
    (∀ t, sanitize_mqtt_topic t = sanitizeSpecOrdered t) ∧
      (∀ t, (sanitize_mqtt_topic t).length = t.length) := by
  constructor
  · intro t
    rfl
  · intro t
    rw [sanitize_eq_sanitizeChars]
    exact sanitizeChars_length t

/-- C5: `sanitize_mqtt_topic` is idempotent.  The replacement pass removes
every reserved character (in particular every `$`), so a second application
finds nothing to replace and the leading-`$` fix can never fire on a
sanitized string. -/
theorem c5_sanitize_idempotent :
    ∀ t, sanitize_mqtt_topic (sanitize_mqtt_topic t) = sanitize_mqtt_topic t := by
  intro t
  rw [sanitize_eq_sanitizeChars t, sanitize_eq_sanitizeChars (sanitizeChars t)]
  exact sanitizeChars_id_of_clean (fun c hc => reserved_not_mem_sanitizeChars hc t)

/-- A parsed CSV row: association list from column name to string value,
as produced by `csv.DictReader`. -/
abbrev Row := List (String × Str)

/-- Embedding of Python dict access: `row[key]` when present, with
`key in row` being `(rowGet row key).isSome`. -/
def rowGet : Row → String → Option Str
  | [], _ => none
  | (k, v) :: rest, key => if k = key then some v else rowGet rest key

/-- The per-row record appended to `nodes` by generator 1:
`{'mqtt_input_name': ..., 'mqtt_topic': ...}`. -/
structure Node where
  mqtt_input_name : Str
  mqtt_topic : Str
deriving DecidableEq

/-- The literal topic namespace of generator 1: the string
`"telegraf/opcua/"` of `f"telegraf/opcua/{mqtt_input_name}"`. -/
def gen1TopicBase : Str := strLit "telegraf/opcua/"

/-- One iteration of generator 1's row loop: when `MQTTInputName` is
present, derive the candidate topic, validate it, sanitize on failure, and
produce the node; otherwise the row is skipped. -/
def gen1ProcessRow (row : Row) : Option Node :=
  match rowGet row "MQTTInputName" with
  | none => none
  | some mqtt_input_name =>
    let raw := gen1TopicBase ++ mqtt_input_name
    some { mqtt_input_name := mqtt_input_name,
           mqtt_topic := if validate_mqtt_topic raw then raw else sanitize_mqtt_topic raw }

/-- The `nodes` list built by generator 1's CSV loop, in input row order. -/
def gen1Nodes (rows : List Row) : List Node := rows.filterMap gen1ProcessRow

/-- The `_topics_sanitized` counter of generator 1: incremented once per
processed row whose candidate topic fails validation. -/
def gen1SanitizedCount (rows : List Row) : Nat :=
  rows.foldl (fun c row =>
    match rowGet row "MQTTInputName" with
    | none => c
    | some mqtt_input_name =>
      if validate_mqtt_topic (gen1TopicBase ++ mqtt_input_name) then c else c + 1) 0

/-- A field mapping of generator 2: `{'path': row['JsonPath'],
'rename': row['FieldName']}`. -/
structure FieldMap where
  path : Str
  rename : Str
deriving DecidableEq

/-- The required-column list of generator 2's row check. -/
def gen2RequiredKeys : List String := ["MQTTInputName", "JsonPath", "FieldName"]

/-- The list logged for a skipped row of generator 2:
`[key for key in [...] if key not in row or not row[key]]`. -/
def gen2MissingKeys (row : Row) : List String :=
  gen2RequiredKeys.filter (fun k =>
    match rowGet row k with
    | none => true
    | some v => v.isEmpty)

/-- Generator 2's row check `all(key in row and row[key] for key in [...])`,
returning the grouping key and field mapping of a valid row. -/
def gen2ValidRow (row : Row) : Option (Str × FieldMap) :=
  match rowGet row "MQTTInputName", rowGet row "JsonPath", rowGet row "FieldName" with
  | some n, some p, some f =>
    if n.isEmpty || p.isEmpty || f.isEmpty then none
    else some (n, { path := p, rename := f })
  | some _, some _, none => none
  | some _, none, _ => none
  | none, _, _ => none

/-- Generator 2's `topics_data`: an insertion-ordered dictionary from topic
key to its list of field mappings, as maintained by
`defaultdict(list)` under Python's insertion-order-preserving dicts. -/
abbrev Groups := List (Str × List FieldMap)

/-- `topics_data[row['MQTTInputName']].append(...)`: append to the existing
entry of the key, or add a new entry at the end. -/
def insertGrouped : Groups → Str → FieldMap → Groups
  | [], k, v => [(k, [v])]
  | (k1, vs) :: rest, k, v =>
    if k1 = k then (k1, vs ++ [v]) :: rest
    else (k1, vs) :: insertGrouped rest k v

/-- One iteration of generator 2's row loop: group a valid row, skip an
invalid one. -/
def gen2Step (acc : Groups) (row : Row) : Groups :=
  match gen2ValidRow row with
  | some (n, m) => insertGrouped acc n m
  | none => acc

/-- The grouped `topics_data` produced by generator 2's CSV loop. -/
def gen2Group (rows : List Row) : Groups := rows.foldl gen2Step []

/-- Dictionary lookup in the grouped data (empty list when absent). -/
def lookupGroup : Groups → Str → List FieldMap
  | [], _ => []
  | (k1, vs) :: rest, k => if k1 = k then vs else lookupGroup rest k

/-- The field mappings of all valid rows carrying grouping key `k`, in
input row order: the reference value for `lookupGroup`. -/
def gen2MapsFor (rows : List Row) (k : Str) : List FieldMap :=
  rows.filterMap (fun row =>
    match gen2ValidRow row with
    | some (n, m) => if n = k then some m else none
    | none => none)

/-- The grouping keys of the valid rows, in input row order, with
duplicates retained. -/
def gen2ValidNames (rows : List Row) : List Str :=
  rows.filterMap (fun row => (gen2ValidRow row).map Prod.fst)

/-- First-seen deduplication relative to a set of already-seen keys: the
reference value for the key order of `gen2Group`. -/
def firstSeenFrom : List Str → List Str → List Str
  | _, [] => []
  | seen, n :: l => if n ∈ seen then firstSeenFrom seen l else n :: firstSeenFrom (n :: seen) l

theorem lookupGroup_insertGrouped_same (acc : Groups) (k : Str) (v : FieldMap) :
    lookupGroup (insertGrouped acc k v) k = lookupGroup acc k ++ [v] := by
  induction acc with
  | nil => simp [insertGrouped, lookupGroup]
  | cons kv rest ih =>
    obtain ⟨k1, vs⟩ := kv
    by_cases h : k1 = k
    · subst h
      simp [insertGrouped, lookupGroup]
    · simp [insertGrouped, lookupGroup, h, ih]

theorem lookupGroup_insertGrouped_other (acc : Groups) {k k1 : Str} (v : FieldMap)
    (h : k1 ≠ k) : lookupGroup (insertGrouped acc k v) k1 = lookupGroup acc k1 := by
  have hne : ¬ k = k1 := fun hh => h hh.symm
  induction acc with
  | nil => simp [insertGrouped, lookupGroup, hne]
  | cons kv rest ih =>
    obtain ⟨k2, vs⟩ := kv
    by_cases h2 : k2 = k
    · subst h2
      simp [insertGrouped, lookupGroup, hne]
    · simp [insertGrouped, lookupGroup, h2, ih]

theorem lookupGroup_foldl (rows : List Row) :
    ∀ (acc : Groups) (k : Str),
      lookupGroup (rows.foldl gen2Step acc) k = lookupGroup acc k ++ gen2MapsFor rows k := by
  induction rows with
  | nil =>
    intro acc k
    simp [gen2MapsFor]
  | cons row rows ih =>
    intro acc k
    rw [List.foldl_cons, ih]
    cases h : gen2ValidRow row with
    | none => simp [gen2Step, h, gen2MapsFor, List.filterMap_cons]
    | some nm =>
      obtain ⟨n, m⟩ := nm
      by_cases hk : n = k
      · subst hk
        simp [gen2Step, h, gen2MapsFor, List.filterMap_cons,
          lookupGroup_insertGrouped_same]
      · simp [gen2Step, h, gen2MapsFor, List.filterMap_cons, hk,
          lookupGroup_insertGrouped_other acc m (fun hh => hk hh.symm)]

theorem insertGrouped_keys (acc : Groups) (k : Str) (v : FieldMap) :
    (insertGrouped acc k v).map Prod.fst =
      if k ∈ acc.map Prod.fst then acc.map Prod.fst else acc.map Prod.fst ++ [k] := by
  induction acc with
  | nil => simp [insertGrouped]
  | cons kv rest ih =>
    obtain ⟨k1, vs⟩ := kv
    by_cases h : k1 = k
    · subst h
      simp [insertGrouped]
    · have hne : ¬ k = k1 := fun hh => h hh.symm
      by_cases hm : k ∈ rest.map Prod.fst
      · simp [insertGrouped, h, ih, hm, hne]
      · simp [insertGrouped, h, ih, hm, hne]

theorem firstSeenFrom_congr {l : List Str} :
    ∀ {s1 s2 : List Str}, (∀ x, x ∈ s1 ↔ x ∈ s2) →
      firstSeenFrom s1 l = firstSeenFrom s2 l := by
  induction l with
  | nil => intro s1 s2 _; rfl
  | cons n l ih =>
    intro s1 s2 h
    by_cases hn : n ∈ s1
    · simp [firstSeenFrom, hn, (h n).mp hn, ih h]
    · have hn2 : n ∉ s2 := fun hh => hn ((h n).mpr hh)
      have hcons : ∀ x, x ∈ n :: s1 ↔ x ∈ n :: s2 := by
        intro x
        simp [List.mem_cons, h x]
      simp [firstSeenFrom, hn, hn2, ih hcons]

theorem firstSeenFrom_cons (seen : List Str) (n : Str) (l : List Str) :
    firstSeenFrom seen (n :: l) =
      if n ∈ seen then firstSeenFrom seen l else n :: firstSeenFrom (n :: seen) l := rfl

theorem gen2ValidNames_cons_none {row : Row} (rows : List Row)
    (h : gen2ValidRow row = none) : gen2ValidNames (row :: rows) = gen2ValidNames rows := by
  simp [gen2ValidNames, List.filterMap_cons, h]

theorem gen2ValidNames_cons_some {row : Row} {n : Str} {m : FieldMap} (rows : List Row)
    (h : gen2ValidRow row = some (n, m)) :
    gen2ValidNames (row :: rows) = n :: gen2ValidNames rows := by
  simp [gen2ValidNames, List.filterMap_cons, h]

theorem gen2Group_keys_foldl (rows : List Row) :
    ∀ acc : Groups,
      (rows.foldl gen2Step acc).map Prod.fst =
        acc.map Prod.fst ++ firstSeenFrom (acc.map Prod.fst) (gen2ValidNames rows) := by
  induction rows with
  | nil =>
    intro acc
    simp [gen2ValidNames, firstSeenFrom]
  | cons row rows ih =>
    intro acc
    rw [List.foldl_cons, ih]
    cases h : gen2ValidRow row with
    | none =>
      rw [gen2ValidNames_cons_none rows h]
      simp [gen2Step, h]
    | some nm =>
      obtain ⟨n, m⟩ := nm
      rw [gen2ValidNames_cons_some rows h, firstSeenFrom_cons]
      have hkeys := insertGrouped_keys acc n m
      have hstep : gen2Step acc row = insertGrouped acc n m := by simp [gen2Step, h]
      by_cases hm : n ∈ acc.map Prod.fst
      · rw [if_pos hm] at hkeys
        rw [hstep, hkeys, if_pos hm]
      · rw [if_neg hm] at hkeys
        rw [hstep, hkeys, if_neg hm]
        have hperm : ∀ x, x ∈ acc.map Prod.fst ++ [n] ↔ x ∈ n :: acc.map Prod.fst := by
          intro x
          simp only [List.mem_append, List.mem_cons, List.mem_singleton]
          tauto
        rw [firstSeenFrom_congr hperm, List.append_assoc, List.singleton_append]

theorem firstSeenFrom_nodup_not_mem (l : List Str) :
    ∀ seen : List Str,
      (firstSeenFrom seen l).Nodup ∧ ∀ x ∈ firstSeenFrom seen l, x ∉ seen := by
  induction l with
  | nil =>
    intro seen
    simp [firstSeenFrom]
  | cons n l ih =>
    intro seen
    by_cases hn : n ∈ seen
    · simpa [firstSeenFrom_cons, hn] using ih seen
    · rw [firstSeenFrom_cons, if_neg hn]
      constructor
      · rw [List.nodup_cons]
        refine ⟨fun hmem => ?_, (ih (n :: seen)).1⟩
        exact ((ih (n :: seen)).2 n hmem) (by simp)
      · intro x hx
        rcases List.mem_cons.mp hx with rfl | hx2
        · exact hn
        · intro hxs
          exact ((ih (n :: seen)).2 x hx2) (by simp [hxs])

/-- A TOML value as assembled through `tomlkit`: plain values, arrays of
strings, tables, and arrays of tables. -/
inductive TomlVal where
  | str : String → TomlVal
  | int : Int → TomlVal
  | bool : Bool → TomlVal
  | strArr : List String → TomlVal
  | table : List (String × TomlVal) → TomlVal
  | aot : List (List (String × TomlVal)) → TomlVal

/-- One `doc.add(...)` call: a comment line, a blank line, or a keyed
value. -/
inductive DocItem where
  | comment : String → DocItem
  | nl : DocItem
  | kv : String → TomlVal → DocItem

/-- The assembled configuration document, in `doc.add` order. -/
abbrev Doc := List DocItem

/-- The `agent` table of generator 1 (hard constants; `omit_hostname` is
`true` there). -/
def gen1AgentTable : List (String × TomlVal) :=
  [("interval", TomlVal.str "10s"), ("round_interval", TomlVal.bool true),
   ("metric_batch_size", TomlVal.int 1000), ("metric_buffer_limit", TomlVal.int 10000),
   ("collection_jitter", TomlVal.str "0s"), ("flush_interval", TomlVal.str "10s"),
   ("flush_jitter", TomlVal.str "0s"), ("precision", TomlVal.str ""),
   ("hostname", TomlVal.str ""), ("omit_hostname", TomlVal.bool true)]

/-- The `agent` table of generator 2 (`omit_hostname` is `false` there). -/
def gen2AgentTable : List (String × TomlVal) :=
  [("interval", TomlVal.str "10s"), ("round_interval", TomlVal.bool true),
   ("metric_batch_size", TomlVal.int 1000), ("metric_buffer_limit", TomlVal.int 10000),
   ("collection_jitter", TomlVal.str "0s"), ("flush_interval", TomlVal.str "10s"),
   ("flush_jitter", TomlVal.str "0s"), ("precision", TomlVal.str ""),
   ("hostname", TomlVal.str ""), ("omit_hostname", TomlVal.bool false)]

/-- One `mqtt_consumer` sub-block of generator 1, per node. -/
def gen1MqttConsumer (mqtt_broker : String) (node : Node) : List (String × TomlVal) :=
  [("servers", TomlVal.strArr [mqtt_broker]),
   ("topics", TomlVal.strArr [String.mk node.mqtt_topic]),
   ("name_override", TomlVal.str "opcua"),
   ("topic_tag", TomlVal.str "mqtt_topic"),
   ("data_format", TomlVal.str "value"),
   ("data_type", TomlVal.str "float")]

/-- The single `influxdb_v2` output table shared by both generators
(the bucket differs: `"mqttinput"` vs `"jsontest"`). -/
def influxOutputTable (influxdb_url bucket : String) : List (String × TomlVal) :=
  [("urls", TomlVal.strArr [influxdb_url]),
   ("token", TomlVal.str "$DOCKER_INFLUXDB_INIT_ADMIN_TOKEN"),
   ("organization", TomlVal.str "$DOCKER_INFLUXDB_INIT_ORG"),
   ("bucket", TomlVal.str bucket)]

/-- The comment ruler line used by both generators. -/
def hashRule : String :=
  "###############################################################################"

/-- The document assembled by generator 1 from its node list, broker
address, database URL and generation timestamp, in `doc.add` order. -/
def gen1Doc (nodes : List Node) (mqtt_broker influxdb_url timestamp : String) : Doc :=
  [DocItem.comment ("# Generated at " ++ timestamp),
   DocItem.comment "# Telegraf Configuration for MQTT Inputs",
   DocItem.comment "# Generated from CSV file",
   DocItem.nl,
   DocItem.comment hashRule,
   DocItem.comment "#                            AGENT SETTINGS                                   #",
   DocItem.comment hashRule,
   DocItem.kv "agent" (TomlVal.table gen1AgentTable),
   DocItem.nl,
   DocItem.comment hashRule,
   DocItem.comment "#                            INPUT PLUGINS                                    #",
   DocItem.comment hashRule,
   DocItem.nl,
   DocItem.comment "# Read data from MQTT topics",
   DocItem.kv "inputs"
     (TomlVal.table [("mqtt_consumer", TomlVal.aot (nodes.map (gen1MqttConsumer mqtt_broker)))]),
   DocItem.nl,
   DocItem.comment hashRule,
   DocItem.comment "#                            OUTPUT PLUGINS                                   #",
   DocItem.comment hashRule,
   DocItem.nl,
   DocItem.comment "# --- InfluxDB v2 Output ---",
   DocItem.kv "outputs"
     (TomlVal.table [("influxdb_v2", TomlVal.aot [influxOutputTable influxdb_url "mqttinput"])])]

/-- One field table of generator 2's `json_v2` block, per field mapping. -/
def gen2FieldTable (m : FieldMap) : List (String × TomlVal) :=
  [("path", TomlVal.str (String.mk m.path)),
   ("rename", TomlVal.str (String.mk m.rename)),
   ("type", TomlVal.str "float")]

/-- One `mqtt_consumer` sub-block of generator 2, per grouped topic. -/
def gen2MqttConsumer (mqtt_broker : String) (g : Str × List FieldMap) :
    List (String × TomlVal) :=
  [("servers", TomlVal.strArr [mqtt_broker]),
   ("topics", TomlVal.strArr [String.mk g.1]),
   ("data_format", TomlVal.str "json_v2"),
   ("json_v2", TomlVal.aot [[("measurement_name", TomlVal.str "mqtt"),
     ("field", TomlVal.aot (g.2.map gen2FieldTable))]]),
   ("tags", TomlVal.table [("MQTTInputName", TomlVal.str (String.mk g.1))])]

/-- The per-topic `doc.add(nl()); doc.add(comment(...))` calls emitted
inside generator 2's loop, before the `inputs` table itself is added. -/
def gen2TopicComments (groups : Groups) : Doc :=
  groups.flatMap (fun g =>
    [DocItem.nl, DocItem.comment ("# Configuration for " ++ String.mk g.1 ++ " topic")])

/-- The document assembled by generator 2 from its grouped topics, broker
address, database URL and generation timestamp, in `doc.add` order. -/
def gen2Doc (groups : Groups) (mqtt_broker influxdb_url timestamp : String) : Doc :=
  [DocItem.comment ("Generated at " ++ timestamp),
   DocItem.comment "Telegraf Configuration for MQTT to InfluxDB with JSON Parsing",
   DocItem.comment "Generated from CSV file",
   DocItem.nl,
   DocItem.comment hashRule,
   DocItem.comment "#                            AGENT SETTINGS                                   #",
   DocItem.comment hashRule,
   DocItem.kv "agent" (TomlVal.table gen2AgentTable),
   DocItem.nl,
   DocItem.comment hashRule,
   DocItem.comment "#                            INPUT PLUGINS                                    #",
   DocItem.comment hashRule,
   DocItem.nl,
   DocItem.comment "# Read and parse JSON data from MQTT topics"] ++
  gen2TopicComments groups ++
  [DocItem.kv "inputs"
     (TomlVal.table [("mqtt_consumer", TomlVal.aot (groups.map (gen2MqttConsumer mqtt_broker)))]),
   DocItem.nl,
   DocItem.comment hashRule,
   DocItem.comment "#                            OUTPUT PLUGINS                                   #",
   DocItem.comment hashRule,
   DocItem.nl,
   DocItem.comment "# --- InfluxDB v2 Output ---",
   DocItem.kv "outputs"
     (TomlVal.table [("influxdb_v2", TomlVal.aot [influxOutputTable influxdb_url "jsontest"])])]

/-- Generator 1's `generate_telegraf_config` after the CSV loop: return
(i.e. write) no document when no valid row was found, otherwise assemble
the document.  `none` models the early `return` before document assembly. -/
def gen1Run (rows : List Row) (mqtt_broker influxdb_url timestamp : String) : Option Doc :=
  if (gen1Nodes rows).isEmpty then none
  else some (gen1Doc (gen1Nodes rows) mqtt_broker influxdb_url timestamp)

/-- Generator 2's `generate_telegraf_config` after the CSV loop: it has no
empty-input guard and always assembles and writes a document. -/
def gen2Run (rows : List Row) (mqtt_broker influxdb_url timestamp : String) : Option Doc :=
  some (gen2Doc (gen2Group rows) mqtt_broker influxdb_url timestamp)

/-- Topic strings carried by a `topics` key of a sub-table. -/
def entryTopicsKV : String × TomlVal → List String
  | (k, TomlVal.strArr ts) => if k = "topics" then ts else []
  | _ => []

/-- All topic strings of one array-of-tables entry. -/
def entryTopics (kvs : List (String × TomlVal)) : List String := kvs.flatMap entryTopicsKV

/-- Topic strings below one key of a top-level table. -/
def kvTopics : String × TomlVal → List String
  | (_, TomlVal.aot es) => es.flatMap entryTopics
  | _ => []

/-- Topic strings contributed by one document item. -/
def itemTopics : DocItem → List String
  | DocItem.kv _ (TomlVal.table kvs) => kvs.flatMap kvTopics
  | _ => []

/-- Every topic string placed in the document: the contents of all
`topics` arrays inside all arrays of tables of all top-level tables. -/
def docTopics (doc : Doc) : List String := doc.flatMap itemTopics

/-- The `mqtt_consumer` entries below one key of the `inputs` table. -/
def kvConsumers : String × TomlVal → List (List (String × TomlVal))
  | (k, TomlVal.aot es) => if k = "mqtt_consumer" then es else []
  | _ => []

/-- The `mqtt_consumer` sub-blocks contributed by one document item. -/
def itemConsumers : DocItem → List (List (String × TomlVal))
  | DocItem.kv k (TomlVal.table kvs) => if k = "inputs" then kvs.flatMap kvConsumers else []
  | _ => []

/-- The `mqtt_consumer` sub-blocks of the document's `inputs` section. -/
def mqttConsumerBlocks (doc : Doc) : List (List (String × TomlVal)) :=
  doc.flatMap itemConsumers

/-- The comment lines of the document, in order. -/
def docComments (doc : Doc) : List String :=
  doc.filterMap (fun it =>
    match it with
    | DocItem.comment s => some s
    | _ => none)

theorem itemTopics_comment (s : String) : itemTopics (DocItem.comment s) = [] := rfl

theorem itemTopics_nl : itemTopics DocItem.nl = [] := rfl

theorem itemTopics_kv_table (k : String) (kvs : List (String × TomlVal)) :
    itemTopics (DocItem.kv k (TomlVal.table kvs)) = kvs.flatMap kvTopics := rfl

theorem kvTopics_aot (k : String) (es : List (List (String × TomlVal))) :
    kvTopics (k, TomlVal.aot es) = es.flatMap entryTopics := rfl

theorem kvTopics_str (k s : String) : kvTopics (k, TomlVal.str s) = [] := rfl

theorem kvTopics_int (k : String) (n : Int) : kvTopics (k, TomlVal.int n) = [] := rfl

theorem kvTopics_bool (k : String) (b : Bool) : kvTopics (k, TomlVal.bool b) = [] := rfl

theorem kvTopics_strArr (k : String) (ts : List String) :
    kvTopics (k, TomlVal.strArr ts) = [] := rfl

theorem kvTopics_table (k : String) (kvs : List (String × TomlVal)) :
    kvTopics (k, TomlVal.table kvs) = [] := rfl

theorem entryTopics_gen1MqttConsumer (b : String) (node : Node) :
    entryTopics (gen1MqttConsumer b node) = [String.mk node.mqtt_topic] := rfl

theorem entryTopics_influxOutputTable (u bucket : String) :
    entryTopics (influxOutputTable u bucket) = [] := rfl

theorem flatMap_entryTopics_gen1 (b : String) (nodes : List Node) :
    (nodes.map (gen1MqttConsumer b)).flatMap entryTopics =
      nodes.map (fun n => String.mk n.mqtt_topic) := by
  rw [List.flatMap_map]
  induction nodes with
  | nil => rfl
  | cons n ns ih =>
    rw [List.flatMap_cons, ih, entryTopics_gen1MqttConsumer]
    rfl

theorem docTopics_gen1Doc (nodes : List Node) (b u ts : String) :
    docTopics (gen1Doc nodes b u ts) = nodes.map (fun n => String.mk n.mqtt_topic) := by
  simp only [docTopics, gen1Doc, List.flatMap_cons, List.flatMap_nil,
    itemTopics_comment, itemTopics_nl, itemTopics_kv_table, gen1AgentTable,
    kvTopics_str, kvTopics_int, kvTopics_bool, kvTopics_aot,
    flatMap_entryTopics_gen1, entryTopics_influxOutputTable,
    List.append_nil, List.nil_append]

theorem entryTopics_gen2MqttConsumer (b : String) (g : Str × List FieldMap) :
    entryTopics (gen2MqttConsumer b g) = [String.mk g.1] := rfl

theorem itemTopics_gen2TopicComments (groups : Groups) :
    (gen2TopicComments groups).flatMap itemTopics = [] := by
  induction groups with
  | nil => rfl
  | cons g gs ih =>
    simp only [gen2TopicComments, List.flatMap_cons, List.flatMap_nil] at ih ⊢
    simp [itemTopics_comment, itemTopics_nl, ih]

theorem flatMap_entryTopics_gen2 (b : String) (groups : Groups) :
    (groups.map (gen2MqttConsumer b)).flatMap entryTopics =
      groups.map (fun g => String.mk g.1) := by
  rw [List.flatMap_map]
  induction groups with
  | nil => rfl
  | cons g gs ih =>
    rw [List.flatMap_cons, ih, entryTopics_gen2MqttConsumer]
    rfl

theorem docTopics_gen2Doc (groups : Groups) (b u ts : String) :
    docTopics (gen2Doc groups b u ts) = groups.map (fun g => String.mk g.1) := by
  simp only [docTopics, gen2Doc, List.flatMap_append, List.flatMap_cons, List.flatMap_nil,
    itemTopics_comment, itemTopics_nl, itemTopics_kv_table, gen2AgentTable,
    kvTopics_str, kvTopics_int, kvTopics_bool, kvTopics_aot,
    itemTopics_gen2TopicComments, flatMap_entryTopics_gen2, entryTopics_influxOutputTable,
    List.append_nil, List.nil_append]

theorem itemConsumers_comment (s : String) : itemConsumers (DocItem.comment s) = [] := rfl

theorem itemConsumers_nl : itemConsumers DocItem.nl = [] := rfl

theorem itemConsumers_kv_table (k : String) (kvs : List (String × TomlVal)) :
    itemConsumers (DocItem.kv k (TomlVal.table kvs)) =
      if k = "inputs" then kvs.flatMap kvConsumers else [] := rfl

theorem itemConsumers_gen2TopicComments (groups : Groups) :
    (gen2TopicComments groups).flatMap itemConsumers = [] := by
  induction groups with
  | nil => rfl
  | cons g gs ih =>
    simp only [gen2TopicComments, List.flatMap_cons, List.flatMap_nil] at ih ⊢
    simp [itemConsumers_comment, itemConsumers_nl, ih]

theorem mqttConsumerBlocks_gen2Doc (groups : Groups) (b u ts : String) :
    mqttConsumerBlocks (gen2Doc groups b u ts) = groups.map (gen2MqttConsumer b) := by
  simp only [mqttConsumerBlocks, gen2Doc, List.flatMap_append, List.flatMap_cons,
    List.flatMap_nil, itemConsumers_comment, itemConsumers_nl, itemConsumers_kv_table,
    itemConsumers_gen2TopicComments, List.append_nil, List.nil_append]
  norm_num [kvConsumers]
  rw [if_neg (show ¬ ("agent" = "inputs") by decide),
    if_neg (show ¬ ("outputs" = "inputs") by decide)]
  simp

theorem mqttConsumerBlocks_gen1Doc (nodes : List Node) (b u ts : String) :
    mqttConsumerBlocks (gen1Doc nodes b u ts) = nodes.map (gen1MqttConsumer b) := by
  simp only [mqttConsumerBlocks, gen1Doc, List.flatMap_cons, List.flatMap_nil,
    itemConsumers_comment, itemConsumers_nl, itemConsumers_kv_table,
    List.append_nil, List.nil_append]
  norm_num [kvConsumers]
  rw [if_neg (show ¬ ("agent" = "inputs") by decide),
    if_neg (show ¬ ("outputs" = "inputs") by decide)]
  simp

theorem gen1ProcessRow_none {row : Row} (h : rowGet row "MQTTInputName" = none) :
    gen1ProcessRow row = none := by
  simp [gen1ProcessRow, h]

theorem gen1Nodes_filter (rows : List Row) :
    gen1Nodes rows =
      gen1Nodes (rows.filter (fun row => (rowGet row "MQTTInputName").isSome)) := by
  induction rows with
  | nil => rfl
  | cons row rows ih =>
    cases h : rowGet row "MQTTInputName" with
    | none =>
      simp only [gen1Nodes, List.filterMap_cons, gen1ProcessRow_none h,
        List.filter_cons, h, Option.isSome_none, Bool.false_eq_true, if_false]
      exact ih
    | some name =>
      have ih2 : List.filterMap gen1ProcessRow rows =
          List.filterMap gen1ProcessRow
            (List.filter (fun row => (rowGet row "MQTTInputName").isSome) rows) := ih
      simp only [gen1Nodes, List.filterMap_cons, List.filter_cons, h,
        Option.isSome_some, if_true]
      cases hp : gen1ProcessRow row with
      | none => exact ih2
      | some n => rw [ih2]

theorem gen2_foldl_skip_invalid (rows : List Row) :
    ∀ acc : Groups,
      rows.foldl gen2Step acc =
        (rows.filter (fun row => (gen2ValidRow row).isSome)).foldl gen2Step acc := by
  induction rows with
  | nil => intro acc; rfl
  | cons row rows ih =>
    intro acc
    rw [List.foldl_cons]
    cases h : gen2ValidRow row with
    | none =>
      have hstep : gen2Step acc row = acc := by simp [gen2Step, h]
      simp only [List.filter_cons, h, Option.isSome_none, Bool.false_eq_true, if_false,
        hstep]
      exact ih acc
    | some nm =>
      simp only [List.filter_cons, h, Option.isSome_some, if_true, List.foldl_cons]
      exact ih (gen2Step acc row)

theorem gen2Group_filter (rows : List Row) :
    gen2Group rows = gen2Group (rows.filter (fun row => (gen2ValidRow row).isSome)) :=
  gen2_foldl_skip_invalid rows []

theorem gen1Nodes_nil_of_no_key {rows : List Row}
    (h : ∀ row ∈ rows, rowGet row "MQTTInputName" = none) : gen1Nodes rows = [] := by
  induction rows with
  | nil => rfl
  | cons row rows ih =>
    simp only [gen1Nodes, List.filterMap_cons, gen1ProcessRow_none (h row (by simp))]
    exact ih (fun r hr => h r (by simp [hr]))

theorem gen2_foldl_id_of_invalid (rows : List Row)
    (h : ∀ row ∈ rows, gen2ValidRow row = none) :
    ∀ acc : Groups, rows.foldl gen2Step acc = acc := by
  induction rows with
  | nil => intro acc; rfl
  | cons row rows ih =>
    intro acc
    rw [List.foldl_cons]
    have hstep : gen2Step acc row = acc := by simp [gen2Step, h row (by simp)]
    rw [hstep]
    exact ih (fun r hr => h r (by simp [hr])) acc

theorem gen2Group_nil_of_invalid {rows : List Row}
    (h : ∀ row ∈ rows, gen2ValidRow row = none) : gen2Group rows = [] :=
  gen2_foldl_id_of_invalid rows h []

theorem hasReservedChar_gen1Node {row : Row} {n : Node}
    (h : gen1ProcessRow row = some n) : hasReservedChar n.mqtt_topic = false := by
  unfold gen1ProcessRow at h
  cases hr : rowGet row "MQTTInputName" with
  | none =>
    rw [hr] at h
    exact absurd h (by simp)
  | some name =>
    rw [hr] at h
    simp only [Option.some.injEq] at h
    subst h
    by_cases hv : validate_mqtt_topic (gen1TopicBase ++ name) = true
    · show hasReservedChar (if validate_mqtt_topic (gen1TopicBase ++ name) then _ else _) = false
      rw [if_pos hv]
      exact hasReservedChar_false_of_validate hv
    · show hasReservedChar (if validate_mqtt_topic (gen1TopicBase ++ name) then _ else _) = false
      rw [if_neg hv]
      exact hasReservedChar_sanitize_false (gen1TopicBase ++ name)

/-- The generator-2 row of the C2 counterexample: all required fields are
present and non-empty, so the raw name `a#b` is used verbatim as a topic. -/
def c2RowJson : Row :=
  [("MQTTInputName", strLit "a#b"), ("JsonPath", strLit "p"), ("FieldName", strLit "f")]

/-- The generator-1 row of the C2 counterexample: a 300-character name
makes the derived topic 315 bytes long; sanitization does not shorten it. -/
def c2RowLong : Row := [("MQTTInputName", List.replicate 300 'a')]

set_option maxRecDepth 8000 in
/-- C2 counterexample: the claim that every topic string placed into the
generated document satisfies `validate_mqtt_topic` is false for both
generators.  Generator 2 places the raw `MQTTInputName` value `a#b`
(containing the reserved `#`) into the document without any validation,
and generator 1 places a sanitized but 315-byte topic that still fails the
250-byte limit. -/
theorem c2_counterexample :
    ((docTopics (gen2Doc (gen2Group [c2RowJson]) "tcp://mosquitto:1883"
        "http://influxdb:8086" "ts")).all (fun t => validate_mqtt_topic t.data) = false) ∧
    ((docTopics (gen1Doc (gen1Nodes [c2RowLong]) "tcp://mosquitto:1883"
        "http://influxdb:8086" "ts")).all (fun t => validate_mqtt_topic t.data) = false) := by
  constructor
  · decide
  · decide

/-- C2 amended: every topic placed into generator 1's document is free of
the reserved characters `+ # * > $ !` (the character-content part of the
legality predicate; the byte-length and level-count limits may still be
violated, and generator 2 applies no validation at all), and in both
generators no input record that fails the minimal required-field check
contributes any entry downstream. -/
theorem c2_amended :
    (∀ (rows : List Row) (b u ts : String) (t : String),
        t ∈ docTopics (gen1Doc (gen1Nodes rows) b u ts) →
        hasReservedChar t.data = false) ∧
    (∀ rows : List Row, gen1Nodes rows =
        gen1Nodes (rows.filter (fun row => (rowGet row "MQTTInputName").isSome))) ∧
    (∀ rows : List Row, gen2Group rows =
        gen2Group (rows.filter (fun row => (gen2ValidRow row).isSome))) := by
  refine ⟨?_, gen1Nodes_filter, gen2Group_filter⟩
  intro rows b u ts t ht
  rw [docTopics_gen1Doc] at ht
  rcases List.mem_map.mp ht with ⟨n, hn, rfl⟩
  show hasReservedChar n.mqtt_topic = false
  rcases List.mem_filterMap.mp hn with ⟨row, _, hrow⟩
  exact hasReservedChar_gen1Node hrow

/-- Witness for the C2 amended theorem at a concrete input: the single row
with `MQTTInputName` equal to `Tank#1` yields the document topic
`telegraf/opcua/Tank_1`, which is free of reserved characters. -/
theorem c2_amended_witness :
    hasReservedChar ("telegraf/opcua/Tank_1" : String).data = false :=
  c2_amended.1 [[("MQTTInputName", strLit "Tank#1")]] "tcp://mosquitto:1883"
    "http://influxdb:8086" "ts" "telegraf/opcua/Tank_1" (by decide)

/-- The row shared by the two runs of the C3 counterexample. -/
def c3Row : Row := [("MQTTInputName", strLit "Tank1")]

/-- C3 counterexample: two runs of either generator on identical input
rows and identical constructor configuration do not produce identical
documents, because the document embeds the generation timestamp read from
the clock; runs at different instants differ in the timestamp comment. -/
theorem c3_counterexample :
    gen1Run [c3Row] "tcp://mosquitto:1883" "http://influxdb:8086"
        "2026-01-01T00:00:00" ≠
      gen1Run [c3Row] "tcp://mosquitto:1883" "http://influxdb:8086"
        "2026-01-02T00:00:00" ∧
    gen2Run [c3Row] "tcp://mosquitto:1883" "http://influxdb:8086"
        "2026-01-01 00:00:00" ≠
      gen2Run [c3Row] "tcp://mosquitto:1883" "http://influxdb:8086"
        "2026-01-02 00:00:00" := by
  constructor
  · intro h
    exact absurd (congrArg (Option.map docComments) h) (by decide)
  · intro h
    exact absurd (congrArg (Option.map docComments) h) (by decide)

/-- C3 amended: each generator's output document is a deterministic
function of the input rows, the constructor configuration, and the
generation timestamp; with the timestamp also held fixed, two runs produce
identical documents. -/
theorem c3_amended :
    ∀ (rows1 rows2 : List Row) (b1 b2 u1 u2 ts1 ts2 : String),
      rows1 = rows2 → b1 = b2 → u1 = u2 → ts1 = ts2 →
      gen1Run rows1 b1 u1 ts1 = gen1Run rows2 b2 u2 ts2 ∧
      gen2Run rows1 b1 u1 ts1 = gen2Run rows2 b2 u2 ts2 := by
  intro rows1 rows2 b1 b2 u1 u2 ts1 ts2 hr hb hu ht
  subst hr
  subst hb
  subst hu
  subst ht
  exact ⟨rfl, rfl⟩

/-- Witness for the C3 amended theorem at a concrete input. -/
theorem c3_amended_witness :
    gen1Run [c3Row] "tcp://mosquitto:1883" "http://influxdb:8086" "ts" =
      gen1Run [c3Row] "tcp://mosquitto:1883" "http://influxdb:8086" "ts" ∧
    gen2Run [c3Row] "tcp://mosquitto:1883" "http://influxdb:8086" "ts" =
      gen2Run [c3Row] "tcp://mosquitto:1883" "http://influxdb:8086" "ts" :=
  c3_amended [c3Row] [c3Row] "tcp://mosquitto:1883" "tcp://mosquitto:1883"
    "http://influxdb:8086" "http://influxdb:8086" "ts" "ts" rfl rfl rfl rfl

/-- The single input row of the C6 example: `MQTTInputName` is `Tank#1`. -/
def c6Row : Row := [("MQTTInputName", strLit "Tank#1")]

/-- C6: generator 1 derives the candidate topic as the literal
concatenation `telegraf/opcua/ + MQTTInputName`, validates first, calls
the sanitizer only when validation fails and uses its result
unconditionally, and counts one sanitization per failed validation; on the
single row with `MQTTInputName` equal to `Tank#1` it produces the topic
`telegraf/opcua/Tank_1` and the sanitized-topics counter equals 1. -/
theorem c6_generator1_flow :
    gen1Nodes [c6Row] =
      [{ mqtt_input_name := strLit "Tank#1",
         mqtt_topic := strLit "telegraf/opcua/Tank_1" }] ∧
    gen1SanitizedCount [c6Row] = 1 ∧
    (∀ (row : Row) (name : Str), rowGet row "MQTTInputName" = some name →
      validate_mqtt_topic (gen1TopicBase ++ name) = true →
      gen1ProcessRow row =
        some { mqtt_input_name := name, mqtt_topic := gen1TopicBase ++ name }) ∧
    (∀ (row : Row) (name : Str), rowGet row "MQTTInputName" = some name →
      validate_mqtt_topic (gen1TopicBase ++ name) = false →
      gen1ProcessRow row =
        some { mqtt_input_name := name,
               mqtt_topic := sanitize_mqtt_topic (gen1TopicBase ++ name) }) := by
  refine ⟨by decide, by decide, ?_, ?_⟩
  · intro row name hr hv
    simp [gen1ProcessRow, hr, hv]
  · intro row name hr hv
    simp [gen1ProcessRow, hr, hv]

/-- Witness for C6 at the concrete row `Tank#1`, whose candidate topic
fails validation and is therefore sanitized. -/
theorem c6_generator1_flow_witness :
    gen1ProcessRow c6Row =
      some { mqtt_input_name := strLit "Tank#1",
             mqtt_topic := sanitize_mqtt_topic (gen1TopicBase ++ strLit "Tank#1") } :=
  c6_generator1_flow.2.2.2 c6Row (strLit "Tank#1") (by decide) (by decide)

/-- First row of the C7 example. -/
def c7Row1 : Row :=
  [("MQTTInputName", strLit "Line1"), ("JsonPath", strLit "cooler.temperature"),
   ("FieldName", strLit "temp_c")]

/-- Second row of the C7 example, sharing the grouping key `Line1`. -/
def c7Row2 : Row :=
  [("MQTTInputName", strLit "Line1"), ("JsonPath", strLit "heater.temperature"),
   ("FieldName", strLit "temp_h")]

/-- C7: generator 2 groups all valid rows with the same `MQTTInputName`
into exactly one entry whose field mappings appear in input row order
(`lookupGroup` of the grouping equals the in-order mappings of that key);
entries appear in first-seen key order and keys are never duplicated; the
document carries exactly one `mqtt_consumer` sub-block per grouped entry,
in that order; and the two `Line1` rows yield one group with both field
mappings in input order. -/
theorem c7_grouping :
    (∀ (rows : List Row) (k : Str),
      lookupGroup (gen2Group rows) k = gen2MapsFor rows k) ∧
    (∀ rows : List Row,
      (gen2Group rows).map Prod.fst = firstSeenFrom [] (gen2ValidNames rows)) ∧
    (∀ rows : List Row, ((gen2Group rows).map Prod.fst).Nodup) ∧
    (∀ (groups : Groups) (b u ts : String),
      mqttConsumerBlocks (gen2Doc groups b u ts) = groups.map (gen2MqttConsumer b)) ∧
    gen2Group [c7Row1, c7Row2] =
      [(strLit "Line1",
        [{ path := strLit "cooler.temperature", rename := strLit "temp_c" },
         { path := strLit "heater.temperature", rename := strLit "temp_h" }])] := by
  have hkeys : ∀ rows : List Row,
      (gen2Group rows).map Prod.fst = firstSeenFrom [] (gen2ValidNames rows) := by
    intro rows
    have h := gen2Group_keys_foldl rows []
    simpa [gen2Group] using h
  refine ⟨?_, hkeys, ?_, mqttConsumerBlocks_gen2Doc, by decide⟩
  · intro rows k
    have h := lookupGroup_foldl rows [] k
    simpa [gen2Group, lookupGroup] using h
  · intro rows
    rw [hkeys rows]
    exact (firstSeenFrom_nodup_not_mem (gen2ValidNames rows) []).1

/-- The C8 example row: `FieldName` is absent, the other two required
columns are present and non-empty. -/
def c8Row : Row :=
  [("MQTTInputName", strLit "Line1"), ("JsonPath", strLit "cooler.temperature")]

/-- C8: a generator-2 row is grouped exactly when no required column is
missing or empty (so the logged missing-key list is empty); skipped rows
leave the grouping of the remaining rows unchanged; and the concrete row
lacking only `FieldName` is logged with exactly `["FieldName"]` and
contributes nothing. -/
theorem c8_invalid_rows_skipped :
    (∀ row : Row, (gen2ValidRow row).isSome = true ↔ gen2MissingKeys row = []) ∧
    (∀ rows : List Row, gen2Group rows =
        gen2Group (rows.filter (fun row => (gen2ValidRow row).isSome))) ∧
    gen2MissingKeys c8Row = ["FieldName"] ∧
    gen2ValidRow c8Row = none := by
  refine ⟨?_, gen2Group_filter, by decide, by decide⟩
  intro row
  unfold gen2ValidRow gen2MissingKeys gen2RequiredKeys
  cases h1 : rowGet row "MQTTInputName" with
  | none => simp [h1, List.filter]
  | some n =>
    cases h2 : rowGet row "JsonPath" with
    | none =>
      by_cases hn : n.isEmpty <;> simp [h1, h2, hn, List.filter]
    | some p =>
      cases h3 : rowGet row "FieldName" with
      | none =>
        by_cases hn : n.isEmpty <;> by_cases hp : p.isEmpty <;>
          simp [h1, h2, h3, hn, hp, List.filter]
      | some f =>
        by_cases hn : n.isEmpty <;> by_cases hp : p.isEmpty <;> by_cases hf : f.isEmpty <;>
          simp [h1, h2, h3, hn, hp, hf, List.filter]

/-- The constructor state shared by both generator classes. -/
structure GenConfig where
  csv_file_path : String
  output_file_path : String
  mqtt_broker : String
  influxdb_url : String
deriving DecidableEq

/-- Embedding of the (identical) `__init__` bodies of
`TelegrafMQTTConfigGenerator` and `TelegrafMqttJsonConfigGenerator`.
An optional argument left unsupplied is `none`, in which case the Python
default is stored; `Except.error` models the raised `ValueError`. -/
def generatorInit (csv_file_path output_file_path : String)
    (mqtt_broker influxdb_url : Option String) : Except String GenConfig :=
  if csv_file_path = "" then Except.error "CSV file path cannot be empty."
  else if output_file_path = "" then Except.error "Output file path cannot be empty."
  else Except.ok
    { csv_file_path := csv_file_path,
      output_file_path := output_file_path,
      mqtt_broker := mqtt_broker.getD "tcp://mosquitto:1883",
      influxdb_url := influxdb_url.getD "http://influxdb:8086" }

/-- C9: construction with an empty CSV path or an empty output path fails
fast with the corresponding error, and construction with both paths
non-empty and no broker or database URL supplied succeeds and stores the
defaults `tcp://mosquitto:1883` and `http://influxdb:8086`. -/
theorem c9_constructor :
    (∀ (out : String) (b u : Option String),
      generatorInit "" out b u = Except.error "CSV file path cannot be empty.") ∧
    (∀ (csv : String) (b u : Option String), csv ≠ "" →
      generatorInit csv "" b u = Except.error "Output file path cannot be empty.") ∧
    (∀ csv out : String, csv ≠ "" → out ≠ "" →
      generatorInit csv out none none =
        Except.ok
          { csv_file_path := csv, output_file_path := out,
            mqtt_broker := "tcp://mosquitto:1883",
            influxdb_url := "http://influxdb:8086" }) := by
  refine ⟨?_, ?_, ?_⟩
  · intro out b u
    simp [generatorInit]
  · intro csv b u h
    simp [generatorInit, h]
  · intro csv out h1 h2
    simp [generatorInit, h1, h2, Option.getD]

/-- Witness for C9 at concrete non-empty paths with no broker or database
URL supplied. -/
theorem c9_constructor_witness :
    generatorInit "nodes.csv" "telegraf.conf" none none =
      Except.ok
        { csv_file_path := "nodes.csv", output_file_path := "telegraf.conf",
          mqtt_broker := "tcp://mosquitto:1883",
          influxdb_url := "http://influxdb:8086" } :=
  c9_constructor.2.2 "nodes.csv" "telegraf.conf" (by decide) (by decide)

/-- C10: when no row carries the `MQTTInputName` column, generator 1
returns before assembling any document and writes nothing (the `none`
outcome leaves an existing output file untouched); generator 2 has no such
guard: it always writes a document, and with no valid rows the document's
`inputs` section carries an empty `mqtt_consumer` list. -/
theorem c10_empty_input_behavior :
    (∀ (rows : List Row) (b u ts : String),
      (∀ row ∈ rows, rowGet row "MQTTInputName" = none) →
      gen1Run rows b u ts = none) ∧
    (∀ (rows : List Row) (b u ts : String), (gen2Run rows b u ts).isSome = true) ∧
    (∀ (rows : List Row) (b u ts : String),
      (∀ row ∈ rows, gen2ValidRow row = none) →
      gen2Run rows b u ts = some (gen2Doc [] b u ts) ∧
      mqttConsumerBlocks (gen2Doc [] b u ts) = []) := by
  refine ⟨?_, ?_, ?_⟩
  · intro rows b u ts h
    simp [gen1Run, gen1Nodes_nil_of_no_key h]
  · intro rows b u ts
    rfl
  · intro rows b u ts h
    refine ⟨?_, ?_⟩
    · simp [gen2Run, gen2Group_nil_of_invalid h]
    · rw [mqttConsumerBlocks_gen2Doc]
      rfl

/-- Witness for C10 at the empty row list. -/
theorem c10_empty_input_behavior_witness :
    gen1Run [] "tcp://mosquitto:1883" "http://influxdb:8086" "ts" = none ∧
    gen2Run [] "tcp://mosquitto:1883" "http://influxdb:8086" "ts" =
      some (gen2Doc [] "tcp://mosquitto:1883" "http://influxdb:8086" "ts") :=
  ⟨c10_empty_input_behavior.1 [] "tcp://mosquitto:1883" "http://influxdb:8086" "ts"
      (by simp),
   (c10_empty_input_behavior.2.2 [] "tcp://mosquitto:1883" "http://influxdb:8086" "ts"
      (by simp)).1⟩
